import Mathlib

/-!
Verification of the `sui-intent-bridge` solver engine and bridge contracts.

Shallow embedding of:
* the off-chain Dutch-auction pricer `calculateCurrentPrice`
  (`src/scripts/solvers/utils.ts`) and its copy `calculateDutchPrice`
  (`src/scripts/solver-bot.ts`),
* the EVM settlement contract `IntentBridge.sol` (`createOrder`,
  `getRequiredAmountAt`, `settleOrder`) with Solidity 0.8 checked
  `uint256` arithmetic and revert-rollback semantics (`Except`),
* the Sui Move module `solver_engine.move` (`solve_and_prove`, `pay_all`,
  `u64_to_bytes_be`, payload construction),
* the solver bot's event handling and VAA polling loops
  (`src/scripts/solver-bot.ts`).

The profitability gate of `processOrder` (`solver-integration.ts`) is not
embedded: its skip/proceed decision is computed in IEEE-754 binary64
arithmetic (`parseFloat`, double subtraction and comparison), which this
development does not model.
-/

namespace IntentBridge

/-! ## Dutch-auction pricing (off-chain, TypeScript) -/

/-- Off-chain Dutch-auction pricer, from `calculateCurrentPrice` in
`src/scripts/solvers/utils.ts`.  The TypeScript function computes on
`bigint`, embedded here as `Int`; JavaScript `bigint` division truncates
toward zero, which is `Int.tdiv`. -/
def calculateCurrentPrice (startAmount minAmount startTime duration currentTime : Int) : Int :=
  if currentTime ≤ startTime then
    startAmount
  else
    let elapsed := currentTime - startTime
    if duration ≤ elapsed then
      minAmount
    else
      let totalDrop := startAmount - minAmount
      let decay := Int.tdiv (totalDrop * elapsed) duration
      startAmount - decay

/-- The solver bot's own copy of the pricer, `calculateDutchPrice` in
`src/scripts/solver-bot.ts` (identical formula; the bot passes
`now = BigInt(Math.floor(Date.now() / 1000))`). -/
def calculateDutchPrice (startAmount minAmount startTime duration now : Int) : Int :=
  if now ≤ startTime then
    startAmount
  else
    let elapsed := now - startTime
    if duration ≤ elapsed then
      minAmount
    else
      let totalDrop := startAmount - minAmount
      let decay := Int.tdiv (totalDrop * elapsed) duration
      startAmount - decay

/-- Natural-number form of the pricing computation.  All call sites of the
TypeScript pricer pass non-negative integers (uint256 event fields and Unix
timestamps); `calculateCurrentPrice_natCast` relates this form to the `Int`
embedding. -/
def priceCore (sp fp st d now : Nat) : Nat :=
  if now ≤ st then sp
  else if d ≤ now - st then fp
  else sp - (sp - fp) * (now - st) / d

theorem natCast_tdiv (m n : Nat) : Int.tdiv (m : Int) (n : Int) = ((m / n : Nat) : Int) := by
  simp [Int.tdiv]

theorem decay_le_totalDrop (a el d : Nat) (h : el ≤ d) (hd : 0 < d) :
    a * el / d ≤ a := by
  calc a * el / d ≤ a * d / d := Nat.div_le_div_right (Nat.mul_le_mul_left a h)
  _ = a := Nat.mul_div_cancel a hd

/-- On non-negative inputs with `floorPrice ≤ startPrice`, the `Int`
embedding of the TypeScript pricer computes `priceCore`. -/
theorem calculateCurrentPrice_natCast (sp fp st d now : Nat) (hfp : fp ≤ sp) :
    calculateCurrentPrice sp fp st d now = (priceCore sp fp st d now : Int) := by
  unfold calculateCurrentPrice priceCore
  by_cases h1 : now ≤ st
  · simp [h1, Int.ofNat_le.mpr h1]
  · have hlt : st < now := Nat.lt_of_not_le h1
    have h1' : ¬ ((now : Int) ≤ (st : Int)) := by exact_mod_cast h1
    simp only [h1, h1', if_false]
    have hel : (now : Int) - (st : Int) = ((now - st : Nat) : Int) := by
      omega
    by_cases h2 : d ≤ now - st
    · have h2' : (d : Int) ≤ (now : Int) - (st : Int) := by
        rw [hel]; exact_mod_cast h2
      simp [h2, h2']
    · have h2' : ¬ ((d : Int) ≤ (now : Int) - (st : Int)) := by
        rw [hel]; exact_mod_cast h2
      simp only [h2, h2', if_false]
      have hdrop : (sp : Int) - (fp : Int) = ((sp - fp : Nat) : Int) := by
        omega
      rw [hdrop, hel, ← Nat.cast_mul, natCast_tdiv]
      have hd : 0 < d := by omega
      have hle : (sp - fp) * (now - st) / d ≤ sp :=
        le_trans
          (decay_le_totalDrop (sp - fp) (now - st) d (Nat.le_of_lt (Nat.lt_of_not_le h2)) hd)
          (Nat.sub_le sp fp)
      omega

/-- C1: for every auction with `floorPrice ≤ startPrice` and `duration > 0`,
the engine's required-amount function `calculateCurrentPrice` returns
`startPrice` whenever `now ≤ startTime`, `floorPrice` whenever
`now - startTime ≥ duration`, and otherwise
`startPrice - floor((startPrice - floorPrice) * (now - startTime) / duration)`;
and on `startPrice = 100`, `floorPrice = 50`, `duration = 600` it returns `75`
at `now = startTime + 300`, `50` at `now = startTime + 600`, and `100` at
`now = startTime - 10`. -/
theorem calculateCurrentPrice_spec (sp fp st d now : Nat)
    (hfp : fp ≤ sp) (hd : 0 < d) :
    (now ≤ st → calculateCurrentPrice sp fp st d now = sp) ∧
    (d ≤ now - st → calculateCurrentPrice sp fp st d now = fp) ∧
    (st < now → now - st < d →
      calculateCurrentPrice sp fp st d now =
        ((sp - (sp - fp) * (now - st) / d : Nat) : Int)) ∧
    calculateCurrentPrice 100 50 st 600 ((st : Int) + 300) = 75 ∧
    calculateCurrentPrice 100 50 st 600 ((st : Int) + 600) = 50 ∧
    calculateCurrentPrice 100 50 st 600 ((st : Int) - 10) = 100 := by
  have hcast := calculateCurrentPrice_natCast sp fp st d now hfp
  refine ⟨?_, ?_, ?_, ?_, ?_, ?_⟩
  · intro h1
    rw [hcast]; unfold priceCore; simp [h1]
  · intro h2
    have h1 : ¬ now ≤ st := by omega
    rw [hcast]; unfold priceCore; simp [h1, h2]
  · intro hlt h2
    have h1 : ¬ now ≤ st := by omega
    have h2' : ¬ d ≤ now - st := by omega
    rw [hcast]; unfold priceCore; simp [h1, h2']
  · unfold calculateCurrentPrice
    have h1 : ¬ ((st : Int) + 300 ≤ (st : Int)) := by omega
    have hel : (st : Int) + 300 - (st : Int) = 300 := by ring
    rw [if_neg h1, hel]
    decide
  · unfold calculateCurrentPrice
    have h1 : ¬ ((st : Int) + 600 ≤ (st : Int)) := by omega
    have hel : (st : Int) + 600 - (st : Int) = 600 := by ring
    rw [if_neg h1, hel]
    decide
  · unfold calculateCurrentPrice
    have : (st : Int) - 10 ≤ (st : Int) := by omega
    simp [this]

/-- Witness for `calculateCurrentPrice_spec` at
`sp = 100, fp = 50, st = 1000, d = 600, now = 1300`. -/
theorem calculateCurrentPrice_spec_witness :
    (1300 : Nat) - 1000 < 600 ∧
    calculateCurrentPrice 100 50 1000 600 1300 =
      ((100 - (100 - 50) * (1300 - 1000) / 600 : Nat) : Int) := by
  refine ⟨by norm_num, ?_⟩
  exact (calculateCurrentPrice_spec 100 50 1000 600 1300 (by norm_num)
    (by norm_num)).2.2.1 (by norm_num) (by norm_num)

theorem priceCore_anti (sp fp st d t1 t2 : Nat) (hfp : fp ≤ sp) (hd : 0 < d)
    (h : t1 ≤ t2) : priceCore sp fp st d t2 ≤ priceCore sp fp st d t1 := by
  unfold priceCore
  by_cases h1 : t2 ≤ st
  · have h1' : t1 ≤ st := le_trans h h1
    simp [h1, h1']
  · by_cases h1' : t1 ≤ st
    · simp only [h1, if_false, h1', if_true]
      by_cases h2 : d ≤ t2 - st
      · simp [h2, hfp]
      · simp only [h2, if_false]
        exact Nat.sub_le _ _
    · simp only [h1, h1', if_false]
      by_cases h2a : d ≤ t1 - st
      · have h2b : d ≤ t2 - st := by omega
        simp [h2a, h2b]
      · by_cases h2b : d ≤ t2 - st
        · simp only [h2a, h2b, if_true, if_false]
          have hdec : (sp - fp) * (t1 - st) / d ≤ sp - fp :=
            decay_le_totalDrop _ _ _ (by omega) hd
          omega
        · simp only [h2a, h2b, if_false]
          have hmono : (sp - fp) * (t1 - st) / d ≤ (sp - fp) * (t2 - st) / d :=
            Nat.div_le_div_right (Nat.mul_le_mul_left _ (by omega))
          omega

/-- C2: for every auction with `floorPrice ≤ startPrice` and `duration > 0`,
the required amount is non-increasing in `now`, equals `startPrice` at
`now = startTime`, and equals `floorPrice` at `now = startTime + duration`. -/
theorem requiredAmount_monotone (sp fp st d : Nat) (hfp : fp ≤ sp) (hd : 0 < d) :
    (∀ t1 t2 : Nat, t1 ≤ t2 →
      calculateCurrentPrice sp fp st d t2 ≤ calculateCurrentPrice sp fp st d t1) ∧
    calculateCurrentPrice sp fp st d st = sp ∧
    calculateCurrentPrice sp fp st d ((st : Int) + (d : Int)) = fp := by
  refine ⟨?_, ?_, ?_⟩
  · intro t1 t2 h
    rw [calculateCurrentPrice_natCast sp fp st d t1 hfp,
      calculateCurrentPrice_natCast sp fp st d t2 hfp]
    exact_mod_cast priceCore_anti sp fp st d t1 t2 hfp hd h
  · simp [calculateCurrentPrice]
  · have harg : (st : Int) + (d : Int) = ((st + d : Nat) : Int) := by push_cast; ring
    rw [harg, calculateCurrentPrice_natCast sp fp st d (st + d) hfp]
    unfold priceCore
    have h1 : ¬ (st + d ≤ st) := by omega
    have h2 : d ≤ st + d - st := by omega
    simp [h1, h2]

/-- Witness for `requiredAmount_monotone` at `sp = 100, fp = 50, st = 0, d = 600`. -/
theorem requiredAmount_monotone_witness :
    calculateCurrentPrice 100 50 0 600 700 ≤ calculateCurrentPrice 100 50 0 600 300 ∧
    calculateCurrentPrice 100 50 0 600 0 = 100 ∧
    calculateCurrentPrice 100 50 0 600 (((0 : Nat) : Int) + ((600 : Nat) : Int)) = 50 := by
  have h := requiredAmount_monotone 100 50 0 600 (by norm_num) (by norm_num)
  exact ⟨h.1 300 700 (by norm_num), h.2.1, h.2.2⟩

/-! ## The EVM contract `IntentBridge.sol`: order storage and pricing -/

/-- `OrderStatus` from `IntentBridge.sol` (`PENDING` is enum value 0). -/
inductive OrderStatus
  | PENDING
  | SETTLED
  | REFUNDED
deriving Repr, DecidableEq

/-- `CrossChainOrder` from `IntentBridge.sol`; `uint256` fields become `Nat`,
`address`/`bytes32` fields become their numeric value. -/
structure CrossChainOrder where
  depositor : Nat
  inputAmount : Nat
  recipientSui : Nat
  startOutputAmount : Nat
  minOutputAmount : Nat
  startTime : Nat
  duration : Nat
  status : OrderStatus
deriving Repr, DecidableEq

/-- Solidity mapping default: the all-zero struct (status `PENDING`, enum 0). -/
def emptyOrder : CrossChainOrder :=
  ⟨0, 0, 0, 0, 0, 0, 0, .PENDING⟩

/-- One past the largest EVM word.  Solidity 0.8 checked arithmetic reverts
when a result does not fit `uint256`. -/
def UINT256_SIZE : Nat := 2 ^ 256

/-- Checked `uint256` subtraction: reverts (`none`) on underflow. -/
def checkedSub (a b : Nat) : Option Nat :=
  if b ≤ a then some (a - b) else none

/-- Checked `uint256` multiplication: reverts (`none`) on overflow. -/
def checkedMul (a b : Nat) : Option Nat :=
  if a * b < UINT256_SIZE then some (a * b) else none

/-- `getRequiredAmountAt` from `IntentBridge.sol` (also the body of the view
`getCurrentRequiredAmount`, which calls it at `block.timestamp`).  `none`
models an arithmetic revert of Solidity 0.8 checked `uint256` arithmetic.
The subtraction `timestamp - order.startTime` is unchecked here because the
enclosing branch guarantees `timestamp > order.startTime`. -/
def getRequiredAmountAt (order : CrossChainOrder) (timestamp : Nat) : Option Nat :=
  if timestamp ≤ order.startTime then
    some order.startOutputAmount
  else
    let elapsed := timestamp - order.startTime
    if order.duration ≤ elapsed then
      some order.minOutputAmount
    else do
      let totalDrop ← checkedSub order.startOutputAmount order.minOutputAmount
      let prod ← checkedMul totalDrop elapsed
      let decayAmount := prod / order.duration
      checkedSub order.startOutputAmount decayAmount

/-- When the decay-branch product does not overflow, the on-chain pricer
computes `priceCore` (no revert). -/
theorem getRequiredAmountAt_eq_core (order : CrossChainOrder) (ts : Nat)
    (hfp : order.minOutputAmount ≤ order.startOutputAmount)
    (hov : ts - order.startTime < order.duration →
      (order.startOutputAmount - order.minOutputAmount) * (ts - order.startTime) <
        UINT256_SIZE) :
    getRequiredAmountAt order ts =
      some (priceCore order.startOutputAmount order.minOutputAmount
        order.startTime order.duration ts) := by
  unfold getRequiredAmountAt priceCore
  by_cases h1 : ts ≤ order.startTime
  · simp [h1]
  · simp only [h1, if_false]
    by_cases h2 : order.duration ≤ ts - order.startTime
    · simp [h2]
    · have hov' := hov (by omega)
      have hd : 0 < order.duration := by omega
      have hdec : (order.startOutputAmount - order.minOutputAmount) *
          (ts - order.startTime) / order.duration ≤ order.startOutputAmount :=
        le_trans (decay_le_totalDrop _ _ _ (by omega) hd) (Nat.sub_le _ _)
      simp [h2, checkedSub, checkedMul, hfp, hov', hdec]

set_option maxRecDepth 4000 in
/-- C3 (counterexample): with every input representable as `uint256`, the
Solidity computation `getRequiredAmountAt` reverts on intermediate overflow
of `totalDrop * elapsed` while the TypeScript `calculateCurrentPrice` returns
a value, so the two are not bit-for-bit equal on all representable inputs. -/
theorem calculateCurrentPrice_evm_overflow_mismatch :
    (2 ^ 255 < UINT256_SIZE ∧ 2 ^ 200 < UINT256_SIZE ∧ 2 ^ 100 < UINT256_SIZE) ∧
    getRequiredAmountAt ⟨0, 1, 0, 2 ^ 255, 0, 0, 2 ^ 200, .PENDING⟩ (2 ^ 100) = none ∧
    calculateCurrentPrice (2 ^ 255) 0 0 (2 ^ 200) (2 ^ 100) =
      2 ^ 255 - 2 ^ 155 := by
  refine ⟨by decide, by decide, by decide⟩

/-- C3 (amended): for every order with `floorPrice ≤ startPrice` and
`duration > 0`, and every timestamp such that the decay-branch product
`(startPrice - floorPrice) * (timestamp - startTime)` fits in `uint256`, the
off-chain TypeScript pricer and the on-chain Solidity computation agree
exactly (and the latter does not revert). -/
theorem calculateCurrentPrice_matches_evm (order : CrossChainOrder) (ts : Nat)
    (hfp : order.minOutputAmount ≤ order.startOutputAmount)
    (hd : 0 < order.duration)
    (hov : ts - order.startTime < order.duration →
      (order.startOutputAmount - order.minOutputAmount) * (ts - order.startTime) <
        UINT256_SIZE) :
    ∃ v : Nat, getRequiredAmountAt order ts = some v ∧
      calculateCurrentPrice order.startOutputAmount order.minOutputAmount
        order.startTime order.duration ts = (v : Int) := by
  exact ⟨_, getRequiredAmountAt_eq_core order ts hfp hov,
    calculateCurrentPrice_natCast _ _ _ _ _ hfp⟩

/-- Witness for `calculateCurrentPrice_matches_evm` on a small concrete order. -/
theorem calculateCurrentPrice_matches_evm_witness :
    ∃ v : Nat,
      getRequiredAmountAt ⟨0, 1000000, 0, 100, 50, 1000, 600, .PENDING⟩ 1300 = some v ∧
      calculateCurrentPrice 100 50 1000 600 1300 = (v : Int) := by
  exact calculateCurrentPrice_matches_evm ⟨0, 1000000, 0, 100, 50, 1000, 600, .PENDING⟩
    1300 (by norm_num) (by norm_num) (by intro h; decide)

/-! ## The EVM contract `IntentBridge.sol`: settlement -/

/-- Wormhole chain id for Sui, the constant `SUI_CHAIN_ID` of the contract. -/
def SUI_CHAIN_ID : Nat := 21

/-- The fields of a parsed Wormhole `CoreBridgeVM` that `settleOrder` reads.
Parsing/verifying the raw attestation bytes is the Wormhole core bridge's
job (outside this repository); its verdict enters the model as the `valid`
flag passed alongside the parsed message. -/
structure CoreBridgeVM where
  emitterChainId : Nat
  emitterAddress : Nat
  sequence : Nat
  timestamp : Nat
  payload : List Nat
  hash : Nat
deriving Repr, DecidableEq

/-- The contract's immutable configuration: the expected Sui emitter address
and the contract's own address (holder of the locked USDC). -/
structure BridgeConfig where
  suiContractAddress : Nat
  self : Nat
deriving Repr, DecidableEq

/-- The contract storage (`nextOrderId`, `orders`, `processedVaas`) together
with the USDC balance column relevant to it. -/
structure BridgeState where
  nextOrderId : Nat
  orders : Nat → CrossChainOrder
  processedVaas : Nat → Bool
  usdc : Nat → Nat

/-- Standard ERC20 `transfer`/`transferFrom` semantics of the (external)
USDC token: move `amt` from `src` to `dst`, failing iff `src` lacks
balance. -/
def tokenTransfer (bal : Nat → Nat) (src dst amt : Nat) : Option (Nat → Nat) :=
  if amt ≤ bal src then
    let bal' := Function.update bal src (bal src - amt)
    some (Function.update bal' dst (bal' dst + amt))
  else
    none

/-- Big-endian value of a byte string. -/
def beBytesToNat (bs : List Nat) : Nat :=
  bs.foldl (fun acc b => acc * 256 + b) 0

/-- `abi.decode(vm.payload, (uint256, address, uint256))` on the 96-byte
static tuple encoding: three big-endian 32-byte words; the Solidity decoder
rejects data that is not exactly the tuple encoding and validates that the
`address` word fits 160 bits. -/
def abiDecodeSettlePayload (payload : List Nat) : Option (Nat × Nat × Nat) :=
  if payload.length = 96 then
    let w1 := beBytesToNat (payload.take 32)
    let w2 := beBytesToNat ((payload.drop 32).take 32)
    let w3 := beBytesToNat (payload.drop 64)
    if w2 < 2 ^ 160 then some (w1, w2, w3) else none
  else
    none

/-- The revert reasons of `settleOrder` (the `require(valid, reason)` failure
is `invalidVAA`; `abiDecodeRevert` and `overflowRevert` are the implicit
reverts of `abi.decode` and of checked arithmetic). -/
inductive SettleError
  | invalidVAA
  | vaaAlreadyProcessed
  | invalidEmitterChain
  | invalidEmitterAddress
  | abiDecodeRevert
  | invalidOrder
  | orderAlreadySettled
  | bidTooLow
  | overflowRevert
  | transferFailed
deriving Repr, DecidableEq

/-- The `OrderSettled` event. -/
structure OrderSettledEvent where
  orderId : Nat
  solver : Nat
  amountPaidBySolver : Nat
  vaaHash : Nat
deriving Repr, DecidableEq

/-- `settleOrder` from `IntentBridge.sol`.  An EVM revert rolls back every
state change of the call, so the embedding returns the post-state only on
success (`Except.error` carries no state: the marking of `processedVaas`
made before the later checks is rolled back exactly as on chain). -/
def settleOrder (cfg : BridgeConfig) (s : BridgeState) (vm : CoreBridgeVM)
    (valid : Bool) : Except SettleError (BridgeState × OrderSettledEvent) :=
  -- 1. Verify VAA
  if valid = false then .error .invalidVAA
  -- 2. Prevent replay
  else if s.processedVaas vm.hash then .error .vaaAlreadyProcessed
  else
    let s1 : BridgeState := { s with processedVaas := Function.update s.processedVaas vm.hash true }
    -- 3. Verify emitter
    if vm.emitterChainId ≠ SUI_CHAIN_ID then .error .invalidEmitterChain
    else if vm.emitterAddress ≠ cfg.suiContractAddress then .error .invalidEmitterAddress
    else
      -- 4. Decode payload
      match abiDecodeSettlePayload vm.payload with
      | none => .error .abiDecodeRevert
      | some (orderId, solverAddress, amountPaidBySolver) =>
        -- 5. Validate order
        let order := s1.orders orderId
        if order.inputAmount = 0 then .error .invalidOrder
        else if order.status ≠ .PENDING then .error .orderAlreadySettled
        else
          -- 6. Verify auction logic at the VAA timestamp
          match getRequiredAmountAt order vm.timestamp with
          | none => .error .overflowRevert
          | some requiredAmountAtExecution =>
            if amountPaidBySolver < requiredAmountAtExecution then .error .bidTooLow
            else
              -- 7. Update state
              let settledOrder : CrossChainOrder := { order with status := .SETTLED }
              let s2 : BridgeState :=
                { s1 with orders := Function.update s1.orders orderId settledOrder }
              -- 8. Transfer funds to solver
              match tokenTransfer s2.usdc cfg.self solverAddress order.inputAmount with
              | none => .error .transferFailed
              | some bal =>
                .ok ({ s2 with usdc := bal },
                  ⟨orderId, solverAddress, amountPaidBySolver, vm.hash⟩)

/-- The state after a `settleOrder` call: unchanged when the call reverts. -/
def settleApply (cfg : BridgeConfig) (s : BridgeState) (vm : CoreBridgeVM)
    (valid : Bool) : BridgeState :=
  match settleOrder cfg s vm valid with
  | .ok (s', _) => s'
  | .error _ => s

/-- `createOrder` from `IntentBridge.sol`: locks `inputAmount` USDC via
`transferFrom(msg.sender, address(this), inputAmount)` and records a new
`PENDING` order at `nextOrderId` with `startTime = block.timestamp`. -/
def createOrder (cfg : BridgeConfig) (s : BridgeState) (sender inputAmount
    startOutputAmount minOutputAmount duration recipientSui timestamp : Nat) :
    Option BridgeState :=
  if inputAmount = 0 then none
  else match tokenTransfer s.usdc sender cfg.self inputAmount with
    | none => none
    | some bal =>
      some { nextOrderId := s.nextOrderId + 1,
             orders := Function.update s.orders s.nextOrderId
               ⟨sender, inputAmount, recipientSui, startOutputAmount,
                minOutputAmount, timestamp, duration, .PENDING⟩,
             processedVaas := s.processedVaas,
             usdc := bal }

theorem settleOrder_invalidVAA (cfg : BridgeConfig) (s : BridgeState)
    (vm : CoreBridgeVM) (valid : Bool) (h : valid = false) :
    settleOrder cfg s vm valid = .error .invalidVAA := by
  simp [settleOrder, h]

theorem settleOrder_replay (cfg : BridgeConfig) (s : BridgeState)
    (vm : CoreBridgeVM) (valid : Bool)
    (h1 : valid = true) (h2 : s.processedVaas vm.hash = true) :
    settleOrder cfg s vm valid = .error .vaaAlreadyProcessed := by
  simp [settleOrder, h1, h2]

theorem settleOrder_wrongChain (cfg : BridgeConfig) (s : BridgeState)
    (vm : CoreBridgeVM) (valid : Bool)
    (h1 : valid = true) (h2 : s.processedVaas vm.hash = false)
    (h3 : vm.emitterChainId ≠ SUI_CHAIN_ID) :
    settleOrder cfg s vm valid = .error .invalidEmitterChain := by
  simp [settleOrder, h1, h2, h3]

theorem settleOrder_wrongEmitter (cfg : BridgeConfig) (s : BridgeState)
    (vm : CoreBridgeVM) (valid : Bool)
    (h1 : valid = true) (h2 : s.processedVaas vm.hash = false)
    (h3 : vm.emitterChainId = SUI_CHAIN_ID)
    (h4 : vm.emitterAddress ≠ cfg.suiContractAddress) :
    settleOrder cfg s vm valid = .error .invalidEmitterAddress := by
  simp [settleOrder, h1, h2, h3, h4]

theorem settleOrder_missingOrder (cfg : BridgeConfig) (s : BridgeState)
    (vm : CoreBridgeVM) (valid : Bool) (oid solver amt : Nat)
    (hdecode : abiDecodeSettlePayload vm.payload = some (oid, solver, amt))
    (h1 : valid = true) (h2 : s.processedVaas vm.hash = false)
    (h3 : vm.emitterChainId = SUI_CHAIN_ID)
    (h4 : vm.emitterAddress = cfg.suiContractAddress)
    (h5 : (s.orders oid).inputAmount = 0) :
    settleOrder cfg s vm valid = .error .invalidOrder := by
  simp [settleOrder, hdecode, h1, h2, h3, h4, h5]

theorem settleOrder_alreadySettled (cfg : BridgeConfig) (s : BridgeState)
    (vm : CoreBridgeVM) (valid : Bool) (oid solver amt : Nat)
    (hdecode : abiDecodeSettlePayload vm.payload = some (oid, solver, amt))
    (h1 : valid = true) (h2 : s.processedVaas vm.hash = false)
    (h3 : vm.emitterChainId = SUI_CHAIN_ID)
    (h4 : vm.emitterAddress = cfg.suiContractAddress)
    (h5 : (s.orders oid).inputAmount ≠ 0)
    (h6 : (s.orders oid).status ≠ .PENDING) :
    settleOrder cfg s vm valid = .error .orderAlreadySettled := by
  simp [settleOrder, hdecode, h1, h2, h3, h4, h5, h6]

theorem settleOrder_lowBid (cfg : BridgeConfig) (s : BridgeState)
    (vm : CoreBridgeVM) (valid : Bool) (oid solver amt req : Nat)
    (hdecode : abiDecodeSettlePayload vm.payload = some (oid, solver, amt))
    (hreq : getRequiredAmountAt (s.orders oid) vm.timestamp = some req)
    (h1 : valid = true) (h2 : s.processedVaas vm.hash = false)
    (h3 : vm.emitterChainId = SUI_CHAIN_ID)
    (h4 : vm.emitterAddress = cfg.suiContractAddress)
    (h5 : (s.orders oid).inputAmount ≠ 0)
    (h6 : (s.orders oid).status = .PENDING)
    (h7 : amt < req) :
    settleOrder cfg s vm valid = .error .bidTooLow := by
  simp [settleOrder, hdecode, hreq, h1, h2, h3, h4, h5, h6, h7]

/-- The exact post-state and event of a successful `settleOrder` call. -/
theorem settleOrder_success_eq (cfg : BridgeConfig) (s : BridgeState)
    (vm : CoreBridgeVM) (valid : Bool) (oid solver amt req : Nat)
    (hdecode : abiDecodeSettlePayload vm.payload = some (oid, solver, amt))
    (hreq : getRequiredAmountAt (s.orders oid) vm.timestamp = some req)
    (hbal : (s.orders oid).inputAmount ≤ s.usdc cfg.self)
    (h1 : valid = true) (h2 : s.processedVaas vm.hash = false)
    (h3 : vm.emitterChainId = SUI_CHAIN_ID)
    (h4 : vm.emitterAddress = cfg.suiContractAddress)
    (h5 : (s.orders oid).inputAmount ≠ 0)
    (h6 : (s.orders oid).status = .PENDING)
    (h7 : req ≤ amt) :
    settleOrder cfg s vm valid = .ok
      ({ nextOrderId := s.nextOrderId,
         orders := Function.update s.orders oid
           ({ s.orders oid with status := .SETTLED }),
         processedVaas := Function.update s.processedVaas vm.hash true,
         usdc := Function.update
           (Function.update s.usdc cfg.self
             (s.usdc cfg.self - (s.orders oid).inputAmount)) solver
           ((Function.update s.usdc cfg.self
             (s.usdc cfg.self - (s.orders oid).inputAmount)) solver +
            (s.orders oid).inputAmount) },
       ⟨oid, solver, amt, vm.hash⟩) := by
  simp [settleOrder, hdecode, hreq, tokenTransfer, hbal, h1, h2, h3, h4, h5, h6,
    Nat.not_lt.mpr h7]

/-- A successful `settleOrder` call implies all of the contract's checks. -/
theorem settleOrder_ok_conditions (cfg : BridgeConfig) (s : BridgeState)
    (vm : CoreBridgeVM) (valid : Bool) (oid solver amt req : Nat)
    (out : BridgeState × OrderSettledEvent)
    (hdecode : abiDecodeSettlePayload vm.payload = some (oid, solver, amt))
    (hreq : getRequiredAmountAt (s.orders oid) vm.timestamp = some req)
    (h : settleOrder cfg s vm valid = .ok out) :
    valid = true ∧ s.processedVaas vm.hash = false ∧
      vm.emitterChainId = SUI_CHAIN_ID ∧
      vm.emitterAddress = cfg.suiContractAddress ∧
      (s.orders oid).inputAmount ≠ 0 ∧
      (s.orders oid).status = .PENDING ∧
      req ≤ amt := by
  simp only [settleOrder, hdecode, hreq] at h
  split_ifs at h with h1 h2 h3 h4 h5 h6 h7
  cases htr : tokenTransfer s.usdc cfg.self solver ((s.orders oid).inputAmount) with
  | none => rw [htr] at h; exact absurd h (by simp)
  | some bal =>
    exact ⟨by simpa using h1, by simpa using h2, by simpa using h3,
      by simpa using h4, h5, by simpa using h6, by omega⟩

/-- C4: `settleOrder` succeeds exactly when the attestation is valid, its
hash is unseen, its emitter is the Sui chain id and the configured Sui
contract, the decoded order exists (`inputAmount ≠ 0`) and is `PENDING`,
and the decoded paid amount is at least the auction's required amount at
the attestation's timestamp; each failing check reverts with its
corresponding error, leaving the order (and all state) unchanged; on
success the order becomes `SETTLED` and `inputAmount` USDC moves to the
decoded solver address. -/
theorem settleOrder_spec (cfg : BridgeConfig) (s : BridgeState) (vm : CoreBridgeVM)
    (valid : Bool) (oid solver amt req : Nat)
    (hdecode : abiDecodeSettlePayload vm.payload = some (oid, solver, amt))
    (hreq : getRequiredAmountAt (s.orders oid) vm.timestamp = some req)
    (hbal : (s.orders oid).inputAmount ≤ s.usdc cfg.self) :
    ((∃ out, settleOrder cfg s vm valid = .ok out) ↔
      (valid = true ∧ s.processedVaas vm.hash = false ∧
        vm.emitterChainId = SUI_CHAIN_ID ∧
        vm.emitterAddress = cfg.suiContractAddress ∧
        (s.orders oid).inputAmount ≠ 0 ∧
        (s.orders oid).status = .PENDING ∧
        req ≤ amt)) ∧
    (∀ s' ev, settleOrder cfg s vm valid = .ok (s', ev) →
      s'.orders oid = { s.orders oid with status := .SETTLED } ∧
      s'.processedVaas vm.hash = true ∧
      ev = ⟨oid, solver, amt, vm.hash⟩ ∧
      (solver ≠ cfg.self →
        s'.usdc solver = s.usdc solver + (s.orders oid).inputAmount ∧
        s'.usdc cfg.self = s.usdc cfg.self - (s.orders oid).inputAmount)) ∧
    (valid = false → settleOrder cfg s vm valid = .error .invalidVAA) ∧
    (valid = true → s.processedVaas vm.hash = true →
      settleOrder cfg s vm valid = .error .vaaAlreadyProcessed) ∧
    (valid = true → s.processedVaas vm.hash = false →
      vm.emitterChainId ≠ SUI_CHAIN_ID →
      settleOrder cfg s vm valid = .error .invalidEmitterChain) ∧
    (valid = true → s.processedVaas vm.hash = false →
      vm.emitterChainId = SUI_CHAIN_ID →
      vm.emitterAddress ≠ cfg.suiContractAddress →
      settleOrder cfg s vm valid = .error .invalidEmitterAddress) ∧
    (valid = true → s.processedVaas vm.hash = false →
      vm.emitterChainId = SUI_CHAIN_ID →
      vm.emitterAddress = cfg.suiContractAddress →
      (s.orders oid).inputAmount = 0 →
      settleOrder cfg s vm valid = .error .invalidOrder) ∧
    (valid = true → s.processedVaas vm.hash = false →
      vm.emitterChainId = SUI_CHAIN_ID →
      vm.emitterAddress = cfg.suiContractAddress →
      (s.orders oid).inputAmount ≠ 0 → (s.orders oid).status ≠ .PENDING →
      settleOrder cfg s vm valid = .error .orderAlreadySettled) ∧
    (valid = true → s.processedVaas vm.hash = false →
      vm.emitterChainId = SUI_CHAIN_ID →
      vm.emitterAddress = cfg.suiContractAddress →
      (s.orders oid).inputAmount ≠ 0 → (s.orders oid).status = .PENDING →
      amt < req →
      settleOrder cfg s vm valid = .error .bidTooLow) ∧
    (∀ e, settleOrder cfg s vm valid = .error e →
      settleApply cfg s vm valid = s) := by
  refine ⟨⟨?_, ?_⟩, ?_, ?_, ?_, ?_, ?_, ?_, ?_, ?_, ?_⟩
  · rintro ⟨out, h⟩
    exact settleOrder_ok_conditions cfg s vm valid oid solver amt req out hdecode hreq h
  · rintro ⟨h1, h2, h3, h4, h5, h6, h7⟩
    exact ⟨_, settleOrder_success_eq cfg s vm valid oid solver amt req hdecode hreq
      hbal h1 h2 h3 h4 h5 h6 h7⟩
  · intro s' ev h
    obtain ⟨h1, h2, h3, h4, h5, h6, h7⟩ :=
      settleOrder_ok_conditions cfg s vm valid oid solver amt req (s', ev) hdecode hreq h
    have heq := settleOrder_success_eq cfg s vm valid oid solver amt req hdecode hreq
      hbal h1 h2 h3 h4 h5 h6 h7
    rw [heq] at h
    simp only [Except.ok.injEq, Prod.mk.injEq] at h
    obtain ⟨hs, hev⟩ := h
    subst hs
    refine ⟨by simp, by simp, hev.symm, ?_⟩
    intro hne
    constructor
    · simp [Function.update_same, Function.update_noteq hne]
    · simp [Function.update_noteq (Ne.symm hne), Function.update_same,
        Function.update_noteq hne]
  · exact fun h => settleOrder_invalidVAA cfg s vm valid h
  · exact fun h1 h2 => settleOrder_replay cfg s vm valid h1 h2
  · exact fun h1 h2 h3 => settleOrder_wrongChain cfg s vm valid h1 h2 h3
  · exact fun h1 h2 h3 h4 => settleOrder_wrongEmitter cfg s vm valid h1 h2 h3 h4
  · exact fun h1 h2 h3 h4 h5 =>
      settleOrder_missingOrder cfg s vm valid oid solver amt hdecode h1 h2 h3 h4 h5
  · exact fun h1 h2 h3 h4 h5 h6 =>
      settleOrder_alreadySettled cfg s vm valid oid solver amt hdecode h1 h2 h3 h4 h5 h6
  · exact fun h1 h2 h3 h4 h5 h6 h7 =>
      settleOrder_lowBid cfg s vm valid oid solver amt req hdecode hreq h1 h2 h3 h4 h5 h6 h7
  · intro e h
    unfold settleApply
    rw [h]

/-- Concrete payload for exercising `settleOrder`: decodes to order id 0,
solver address 33, paid amount 80. -/
def samplePayload : List Nat :=
  List.replicate 32 0 ++ (List.replicate 31 0 ++ [33]) ++ (List.replicate 31 0 ++ [80])

/-- Concrete contract state with one pending order (id 0). -/
def sampleState : BridgeState :=
  { nextOrderId := 1,
    orders := fun i => if i = 0 then ⟨9, 1000, 0, 100, 50, 1000, 600, .PENDING⟩ else emptyOrder,
    processedVaas := fun _ => false,
    usdc := fun a => if a = 5 then 5000 else 0 }

/-- Concrete configuration: Sui emitter address 77, contract address 5. -/
def sampleConfig : BridgeConfig := ⟨77, 5⟩

/-- Concrete attestation naming order 0 at timestamp 1300 (required 75). -/
def sampleVM : CoreBridgeVM := ⟨21, 77, 4, 1300, samplePayload, 999⟩

/-- Witness for `settleOrder_spec` on the concrete scenario above. -/
theorem settleOrder_spec_witness :
    abiDecodeSettlePayload sampleVM.payload = some (0, 33, 80) ∧
    getRequiredAmountAt (sampleState.orders 0) sampleVM.timestamp = some 75 ∧
    (sampleState.orders 0).inputAmount ≤ sampleState.usdc sampleConfig.self ∧
    (∃ out, settleOrder sampleConfig sampleState sampleVM true = .ok out) := by
  have hd : abiDecodeSettlePayload sampleVM.payload = some (0, 33, 80) := by decide
  have hr : getRequiredAmountAt (sampleState.orders 0) sampleVM.timestamp = some 75 := by
    decide
  have hb : (sampleState.orders 0).inputAmount ≤ sampleState.usdc sampleConfig.self := by
    decide
  refine ⟨hd, hr, hb, ?_⟩
  exact (settleOrder_spec sampleConfig sampleState sampleVM true 0 33 80 75
    hd hr hb).1.mpr ⟨rfl, by decide, by decide, by decide, by decide, by decide, by decide⟩

/-- Facts forced by any successful `settleOrder` call, without assumptions
on the payload. -/
theorem settleOrder_ok_inv (cfg : BridgeConfig) (s : BridgeState)
    (vm : CoreBridgeVM) (valid : Bool) (s' : BridgeState) (ev : OrderSettledEvent)
    (h : settleOrder cfg s vm valid = .ok (s', ev)) :
    valid = true ∧
    s.processedVaas vm.hash = false ∧
    (s.orders ev.orderId).inputAmount ≠ 0 ∧
    (s.orders ev.orderId).status = .PENDING ∧
    s'.nextOrderId = s.nextOrderId ∧
    s'.orders = Function.update s.orders ev.orderId
      ({ s.orders ev.orderId with status := .SETTLED }) ∧
    s'.processedVaas = Function.update s.processedVaas vm.hash true ∧
    (∃ solver amt, abiDecodeSettlePayload vm.payload = some (ev.orderId, solver, amt)) := by
  simp only [settleOrder] at h
  split_ifs at h with h1 h2 h3 h4
  cases hdec : abiDecodeSettlePayload vm.payload with
  | none => rw [hdec] at h; exact absurd h (by simp)
  | some t =>
    obtain ⟨oid, solver, amt⟩ := t
    rw [hdec] at h
    simp only at h
    split_ifs at h with h5 h6
    cases hra : getRequiredAmountAt (s.orders oid) vm.timestamp with
    | none => rw [hra] at h; exact absurd h (by simp)
    | some req =>
      rw [hra] at h
      simp only at h
      split_ifs at h with h7
      cases htr : tokenTransfer s.usdc cfg.self solver ((s.orders oid).inputAmount) with
      | none => rw [htr] at h; exact absurd h (by simp)
      | some bal =>
        rw [htr] at h
        simp only [Except.ok.injEq, Prod.mk.injEq] at h
        obtain ⟨hs, hev⟩ := h
        subst hs
        subst hev
        refine ⟨by simpa using h1, by simpa using h2, h5, by simpa using h6,
          rfl, rfl, rfl, ⟨solver, amt, by simp [hdec]⟩⟩

/-- Facts forced by any successful `createOrder` call. -/
theorem createOrder_ok_inv (cfg : BridgeConfig) (s : BridgeState)
    (sender amt so mo dur rcp ts : Nat) (s' : BridgeState)
    (h : createOrder cfg s sender amt so mo dur rcp ts = some s') :
    s'.nextOrderId = s.nextOrderId + 1 ∧
    (∀ i, i ≠ s.nextOrderId → s'.orders i = s.orders i) ∧
    (s'.orders s.nextOrderId).status = .PENDING := by
  unfold createOrder at h
  split_ifs at h with h1
  cases htr : tokenTransfer s.usdc sender cfg.self amt with
  | none => rw [htr] at h; exact absurd h (by simp)
  | some bal =>
    rw [htr] at h
    simp only [Option.some.injEq] at h
    subst h
    refine ⟨rfl, ?_, by simp⟩
    intro i hi
    simp [Function.update_noteq hi]

/-- One external call to the bridge contract. -/
inductive ContractCall
  | create (sender inputAmount startOutputAmount minOutputAmount duration
      recipientSui timestamp : Nat)
  | settle (vm : CoreBridgeVM) (valid : Bool)

/-- The state reached by one call; an EVM revert leaves the state as it was. -/
def stepState (cfg : BridgeConfig) (s : BridgeState) : ContractCall → BridgeState
  | .create sender amt so mo dur rcp ts =>
    match createOrder cfg s sender amt so mo dur rcp ts with
    | some s' => s'
    | none => s
  | .settle vm valid => settleApply cfg s vm valid

/-- The order id settled by a call, when it is a successful settlement. -/
def settleSuccessId (cfg : BridgeConfig) (s : BridgeState) : ContractCall → Option Nat
  | .settle vm valid =>
    (match settleOrder cfg s vm valid with
     | .ok (_, ev) => some ev.orderId
     | .error _ => none)
  | .create _ _ _ _ _ _ _ => none

/-- Number of successful settlements of order `oid` along a call sequence. -/
def settleSuccessCount (cfg : BridgeConfig) (s : BridgeState)
    (cs : List ContractCall) (oid : Nat) : Nat :=
  match cs with
  | [] => 0
  | c :: rest =>
    (if settleSuccessId cfg s c = some oid then 1 else 0) +
      settleSuccessCount cfg (stepState cfg s c) rest oid

/-- Storage invariant: ids at or above `nextOrderId` are unassigned.  It
holds of the deployed contract (all-zero storage, `nextOrderId = 0`) and is
preserved by every call. -/
def FreshOrders (s : BridgeState) : Prop :=
  ∀ i, s.nextOrderId ≤ i → (s.orders i).inputAmount = 0

/-- `oid` has been assigned and has left `PENDING`. -/
def DeadOrder (s : BridgeState) (oid : Nat) : Prop :=
  oid < s.nextOrderId ∧ (s.orders oid).status ≠ .PENDING

theorem stepState_fresh (cfg : BridgeConfig) (s : BridgeState) (c : ContractCall)
    (hf : FreshOrders s) : FreshOrders (stepState cfg s c) := by
  cases c with
  | create sender amt so mo dur rcp ts =>
    simp only [stepState]
    cases hc : createOrder cfg s sender amt so mo dur rcp ts with
    | none => exact hf
    | some s' =>
      show FreshOrders s'
      obtain ⟨hn, ho, _⟩ := createOrder_ok_inv cfg s sender amt so mo dur rcp ts s' hc
      intro i hi
      rw [hn] at hi
      rw [ho i (by omega)]
      exact hf i (by omega)
  | settle vm valid =>
    simp only [stepState]
    unfold settleApply
    cases hso : settleOrder cfg s vm valid with
    | error e => exact hf
    | ok out =>
      obtain ⟨s', ev⟩ := out
      show FreshOrders s'
      obtain ⟨_, _, hin, _, hn, ho, _, _⟩ :=
        settleOrder_ok_inv cfg s vm valid s' ev hso
      intro i hi
      rw [hn] at hi
      by_cases hie : i = ev.orderId
      · subst hie
        exact absurd (hf _ hi) hin
      · rw [ho, Function.update_noteq hie]
        exact hf i hi

theorem stepState_dead (cfg : BridgeConfig) (s : BridgeState) (c : ContractCall)
    (oid : Nat) (hd : DeadOrder s oid) : DeadOrder (stepState cfg s c) oid := by
  obtain ⟨hlt, hst⟩ := hd
  cases c with
  | create sender amt so mo dur rcp ts =>
    simp only [stepState]
    cases hc : createOrder cfg s sender amt so mo dur rcp ts with
    | none => exact ⟨hlt, hst⟩
    | some s' =>
      show DeadOrder s' oid
      obtain ⟨hn, ho, _⟩ := createOrder_ok_inv cfg s sender amt so mo dur rcp ts s' hc
      refine ⟨by omega, ?_⟩
      rw [ho oid (by omega)]
      exact hst
  | settle vm valid =>
    simp only [stepState]
    unfold settleApply
    cases hso : settleOrder cfg s vm valid with
    | error e => exact ⟨hlt, hst⟩
    | ok out =>
      obtain ⟨s', ev⟩ := out
      show DeadOrder s' oid
      obtain ⟨_, _, _, _, hn, ho, _, _⟩ :=
        settleOrder_ok_inv cfg s vm valid s' ev hso
      refine ⟨by omega, ?_⟩
      rw [ho]
      by_cases hie : oid = ev.orderId
      · subst hie
        simp [Function.update_same]
      · rw [Function.update_noteq hie]
        exact hst

theorem dead_no_success (cfg : BridgeConfig) (s : BridgeState) (c : ContractCall)
    (oid : Nat) (hd : DeadOrder s oid) : settleSuccessId cfg s c ≠ some oid := by
  cases c with
  | create sender amt so mo dur rcp ts => simp [settleSuccessId]
  | settle vm valid =>
    simp only [settleSuccessId]
    cases hso : settleOrder cfg s vm valid with
    | error e => simp
    | ok out =>
      obtain ⟨s', ev⟩ := out
      obtain ⟨_, _, _, hpend, _, _, _, _⟩ :=
        settleOrder_ok_inv cfg s vm valid s' ev hso
      simp only [Option.some.injEq, ne_eq]
      intro he
      rw [he] at hpend
      exact hd.2 hpend

theorem success_dead (cfg : BridgeConfig) (s : BridgeState) (c : ContractCall)
    (oid : Nat) (hf : FreshOrders s) (h : settleSuccessId cfg s c = some oid) :
    DeadOrder (stepState cfg s c) oid := by
  cases c with
  | create sender amt so mo dur rcp ts => simp [settleSuccessId] at h
  | settle vm valid =>
    simp only [settleSuccessId] at h
    cases hso : settleOrder cfg s vm valid with
    | error e => rw [hso] at h; exact absurd h (by simp)
    | ok out =>
      obtain ⟨s', ev⟩ := out
      rw [hso] at h
      simp only [Option.some.injEq] at h
      subst h
      obtain ⟨_, _, hin, _, hn, ho, _, _⟩ :=
        settleOrder_ok_inv cfg s vm valid s' ev hso
      have hlt : ev.orderId < s.nextOrderId := by
        by_contra hge
        exact hin (hf ev.orderId (by omega))
      have hstep : stepState cfg s (.settle vm valid) = s' := by
        simp only [stepState]
        unfold settleApply
        rw [hso]
      rw [hstep]
      show DeadOrder s' ev.orderId
      refine ⟨by omega, ?_⟩
      rw [ho, Function.update_same]
      simp

theorem dead_count_zero (cfg : BridgeConfig) (s : BridgeState)
    (cs : List ContractCall) (oid : Nat) (hd : DeadOrder s oid) :
    settleSuccessCount cfg s cs oid = 0 := by
  induction cs generalizing s with
  | nil => rfl
  | cons c rest ih =>
    unfold settleSuccessCount
    rw [if_neg (dead_no_success cfg s c oid hd),
      ih (stepState cfg s c) (stepState_dead cfg s c oid hd)]

theorem fresh_count_le_one (cfg : BridgeConfig) (s : BridgeState)
    (cs : List ContractCall) (oid : Nat) (hf : FreshOrders s) :
    settleSuccessCount cfg s cs oid ≤ 1 := by
  induction cs generalizing s with
  | nil => exact Nat.zero_le 1
  | cons c rest ih =>
    unfold settleSuccessCount
    by_cases hc : settleSuccessId cfg s c = some oid
    · rw [if_pos hc,
        dead_count_zero cfg (stepState cfg s c) rest oid (success_dead cfg s c oid hf hc)]
    · rw [if_neg hc]
      simpa using ih (stepState cfg s c) (stepState_fresh cfg s c hf)

/-- C5: for every order id, at most one `settleOrder` invocation can ever
succeed over any sequence of calls: a successful settlement leaves the
order `SETTLED`, after which a later call naming that order cannot succeed
(and reverts `OrderAlreadySettled` when it passes the earlier checks), a
second submission of the same attestation reverts `VAAAlreadyProcessed`
because the hash was recorded before any transfer, and a reverting call
leaves orders, `processedVaas` and balances unchanged. -/
theorem settleOrder_at_most_once (cfg : BridgeConfig) :
    (∀ s cs oid, FreshOrders s → settleSuccessCount cfg s cs oid ≤ 1) ∧
    (∀ s vm valid s' ev, settleOrder cfg s vm valid = .ok (s', ev) →
      settleOrder cfg s' vm valid = .error .vaaAlreadyProcessed) ∧
    (∀ s vm valid oid solver amt s' ev,
      (s.orders oid).status ≠ .PENDING →
      abiDecodeSettlePayload vm.payload = some (oid, solver, amt) →
      settleOrder cfg s vm valid = .ok (s', ev) → False) ∧
    (∀ s vm valid oid solver amt,
      valid = true → s.processedVaas vm.hash = false →
      vm.emitterChainId = SUI_CHAIN_ID →
      vm.emitterAddress = cfg.suiContractAddress →
      abiDecodeSettlePayload vm.payload = some (oid, solver, amt) →
      (s.orders oid).inputAmount ≠ 0 →
      (s.orders oid).status ≠ .PENDING →
      settleOrder cfg s vm valid = .error .orderAlreadySettled) ∧
    (∀ s vm valid e, settleOrder cfg s vm valid = .error e →
      settleApply cfg s vm valid = s) := by
  refine ⟨?_, ?_, ?_, ?_, ?_⟩
  · intro s cs oid hf
    exact fresh_count_le_one cfg s cs oid hf
  · intro s vm valid s' ev h
    obtain ⟨hvalid, _, _, _, _, _, hproc, _⟩ :=
      settleOrder_ok_inv cfg s vm valid s' ev h
    exact settleOrder_replay cfg s' vm valid hvalid
      (by rw [hproc, Function.update_same])
  · intro s vm valid oid solver amt s' ev hpend hdec h
    obtain ⟨_, _, _, hpend', _, _, _, solver', amt', hdec'⟩ :=
      settleOrder_ok_inv cfg s vm valid s' ev h
    rw [hdec] at hdec'
    simp only [Option.some.injEq, Prod.mk.injEq] at hdec'
    rw [← hdec'.1] at hpend'
    exact hpend hpend'
  · intro s vm valid oid solver amt h1 h2 h3 h4 hdec h5 h6
    exact settleOrder_alreadySettled cfg s vm valid oid solver amt hdec h1 h2 h3 h4 h5 h6
  · intro s vm valid e h
    unfold settleApply
    rw [h]

/-- Witness for `settleOrder_at_most_once`: the at-most-once bound applied
to the concrete state of `settleOrder_spec_witness` and a duplicate pair of
settlement calls. -/
theorem settleOrder_at_most_once_witness :
    FreshOrders sampleState ∧
    settleSuccessCount sampleConfig sampleState
      [.settle sampleVM true, .settle sampleVM true] 0 ≤ 1 := by
  have hf : FreshOrders sampleState := by
    intro i hi
    have hne : i ≠ 0 := by
      simp only [sampleState] at hi
      omega
    simp [sampleState, hne, emptyOrder]
  exact ⟨hf, (settleOrder_at_most_once sampleConfig).1 sampleState
    [.settle sampleVM true, .settle sampleVM true] 0 hf⟩

/-! ## The Sui Move module `solver_engine.move` -/

/-- The byte-extraction loop of `u64_to_bytes_be`: `i` iterations of
`push_back (temp & 0xFF); temp := temp >> 8`, least-significant byte
first. -/
def u64LeBytes (temp : Nat) : Nat → List Nat
  | 0 => []
  | i + 1 => (temp &&& 0xFF) :: u64LeBytes (temp >>> 8) i

/-- `u64_to_bytes_be` from `solver_engine.move`: 8 bytes extracted in
little-endian order, then reversed to big-endian. -/
def u64_to_bytes_be (val : Nat) : List Nat :=
  (u64LeBytes val 8).reverse

/-- The Wormhole payload built by `solve_and_prove` (steps A-C of its
body): the intent id bytes, then the solver's 20-byte EVM address
left-padded with 12 zero bytes, then 24 zero bytes followed by the
big-endian `u64` amount. -/
def buildSettlePayload (intent_id solver_evm_address : List Nat)
    (amount_to_send : Nat) : List Nat :=
  intent_id ++ ((List.replicate 12 0 ++ solver_evm_address) ++
    (List.replicate 24 0 ++ u64_to_bytes_be amount_to_send))

/-- `pay_all` from `solver_engine.move` merges a vector of coins into
`target`; on coin values, `coin::join` adds, so only the total matters and
the pop-from-the-back order of the loop is immaterial. -/
def pay_all (target : Nat) (source : List Nat) : Nat :=
  source.foldl (fun acc c => acc + c) target

theorem pay_all_eq_sum (target : Nat) (source : List Nat) :
    pay_all target source = target + source.sum := by
  induction source generalizing target with
  | nil => simp [pay_all]
  | cons c rest ih =>
    simp only [pay_all, List.foldl_cons] at *
    rw [ih (target + c), List.sum_cons]
    omega

/-- The observable outcome of a successful `solve_and_prove` call:
who got paid what, the refund transfer (absent when the merged coin
matched exactly), and the published payload. -/
structure SolveOutcome where
  recipient : Nat
  recipientGets : Nat
  refundToSolver : Option Nat
  payload : List Nat
  amountSent : Nat
deriving Repr, DecidableEq

/-- `solve_and_prove` from `solver_engine.move`, on coin values.  A Move
`assert!` aborts the transaction atomically (even the address-length
assert, which the source raises after the transfers, undoes them), so the
embedding returns the transfers only on success; `Except.error` carries
the abort code.  The Wormhole `publish_message` call and the fee coin are
external to this repository and not modelled. -/
def solve_and_prove (payment_coins : List Nat) (recipient : Nat)
    (intent_id : List Nat) (amount_to_send : Nat)
    (solver_evm_address : List Nat) : Except Nat SolveOutcome :=
  -- assert!(vector::length(&payment_coins) > 0, 0), then pop_back
  match payment_coins.getLast? with
  | none => .error 0
  | some last =>
    -- 1. `coin_to_send` is the popped coin merged with the rest:
    --    its value is `pay_all last payment_coins.dropLast`
    -- 2. assert!(coin::value(&coin_to_send) >= amount_to_send, 1)
    if pay_all last payment_coins.dropLast < amount_to_send then .error 1
    -- 5. assert!(vector::length(&solver_evm_address) == 20, 2)
    else if solver_evm_address.length ≠ 20 then .error 2
    -- 3./4. pay the exact amount to the recipient, refund any remainder
    else if pay_all last payment_coins.dropLast = amount_to_send then
      .ok ⟨recipient, pay_all last payment_coins.dropLast, none,
        buildSettlePayload intent_id solver_evm_address amount_to_send,
        amount_to_send⟩
    else
      .ok ⟨recipient, amount_to_send,
        some (pay_all last payment_coins.dropLast - amount_to_send),
        buildSettlePayload intent_id solver_evm_address amount_to_send,
        amount_to_send⟩

theorem getLast?_sum (coins : List Nat) (last : Nat)
    (h : coins.getLast? = some last) :
    pay_all last coins.dropLast = coins.sum := by
  have hne : coins ≠ [] := by rintro rfl; simp at h
  have hg : coins.getLast hne = last := by
    rwa [List.getLast?_eq_getLast coins hne, Option.some_inj] at h
  rw [pay_all_eq_sum]
  conv_rhs => rw [← List.dropLast_append_getLast hne]
  simp [hg]
  omega

theorem beBytesToNat_cons_zero (l : List Nat) :
    beBytesToNat (0 :: l) = beBytesToNat l := by
  simp [beBytesToNat]

theorem beBytesToNat_zero_pad (k : Nat) (l : List Nat) :
    beBytesToNat (List.replicate k 0 ++ l) = beBytesToNat l := by
  induction k with
  | zero => simp
  | succ n ih => rw [List.replicate_succ, List.cons_append, beBytesToNat_cons_zero, ih]

theorem beBytesToNat_concat (l : List Nat) (b : Nat) :
    beBytesToNat (l ++ [b]) = beBytesToNat l * 256 + b := by
  simp [beBytesToNat, List.foldl_append]

theorem beFold_lt (l : List Nat) (acc : Nat) (hb : ∀ b ∈ l, b < 256) :
    l.foldl (fun a b => a * 256 + b) acc < (acc + 1) * 256 ^ l.length := by
  induction l generalizing acc with
  | nil => simp
  | cons b rest ih =>
    have hb' : b < 256 := hb b (by simp)
    have hrest : ∀ x ∈ rest, x < 256 := fun x hx => hb x (by simp [hx])
    calc rest.foldl (fun a c => a * 256 + c) (acc * 256 + b)
        < (acc * 256 + b + 1) * 256 ^ rest.length := ih (acc * 256 + b) hrest
      _ ≤ ((acc + 1) * 256) * 256 ^ rest.length := by
          apply Nat.mul_le_mul_right
          omega
      _ = (acc + 1) * 256 ^ (b :: rest).length := by
          rw [List.length_cons, pow_succ]
          ring

theorem beBytesToNat_lt (l : List Nat) (hb : ∀ b ∈ l, b < 256) :
    beBytesToNat l < 256 ^ l.length := by
  have := beFold_lt l 0 hb
  simpa [beBytesToNat] using this

theorem u64LeBytes_length (t n : Nat) : (u64LeBytes t n).length = n := by
  induction n generalizing t with
  | zero => rfl
  | succ m ih => simp [u64LeBytes, ih]

theorem beBytesToNat_u64LeBytes (n : Nat) : ∀ t : Nat,
    beBytesToNat (u64LeBytes t n).reverse = t % 2 ^ (8 * n) := by
  induction n with
  | zero => intro t; simp [u64LeBytes, beBytesToNat, Nat.mod_one]
  | succ m ih =>
    intro t
    have hand : t &&& 255 = t % 256 := by
      have h := Nat.and_pow_two_sub_one_eq_mod t 8
      norm_num at h
      exact h
    have hshift : t >>> 8 = t / 256 := by
      have h := Nat.shiftRight_eq_div_pow t 8
      norm_num at h
      exact h
    have hpow : (2 : Nat) ^ (8 * (m + 1)) = 256 * 2 ^ (8 * m) := by
      rw [show 8 * (m + 1) = 8 + 8 * m by ring, pow_add]
      norm_num
    rw [u64LeBytes, List.reverse_cons, beBytesToNat_concat, ih (t >>> 8),
      hand, hshift, hpow, Nat.mod_mul]
    omega

theorem beBytesToNat_u64_to_bytes_be (val : Nat) (h : val < 2 ^ 64) :
    beBytesToNat (u64_to_bytes_be val) = val := by
  rw [u64_to_bytes_be, beBytesToNat_u64LeBytes 8 val]
  norm_num
  omega

theorem u64_to_bytes_be_length (val : Nat) : (u64_to_bytes_be val).length = 8 := by
  simp [u64_to_bytes_be, u64LeBytes_length]

/-- C6: the cross-chain payload built by `solve_and_prove` — the 32-byte
intent id, the 20-byte solver EVM address zero-padded to 32 bytes, and the
`u64` amount as a 32-byte big-endian integer — decodes under `settleOrder`'s
`abi.decode(payload, (uint256, address, uint256))` to exactly that order id,
that solver address and that amount; and a successful `solve_and_prove`
publishes exactly this payload. -/
theorem solvePayload_decodes (intent_id solver_evm_address : List Nat)
    (amount : Nat) (hil : intent_id.length = 32)
    (hal : solver_evm_address.length = 20)
    (hab : ∀ b ∈ solver_evm_address, b < 256) (hamt : amount < 2 ^ 64) :
    abiDecodeSettlePayload (buildSettlePayload intent_id solver_evm_address amount) =
      some (beBytesToNat intent_id, beBytesToNat solver_evm_address, amount) ∧
    (∀ coins recipient out,
      solve_and_prove coins recipient intent_id amount solver_evm_address = .ok out →
      out.payload = buildSettlePayload intent_id solver_evm_address amount) := by
  constructor
  · have hl2 : (List.replicate 12 0 ++ solver_evm_address).length = 32 := by
      simp [hal]
    have hl3 : (List.replicate 24 0 ++ u64_to_bytes_be amount).length = 32 := by
      simp [u64_to_bytes_be_length]
    have hlen : (buildSettlePayload intent_id solver_evm_address amount).length = 96 := by
      simp [buildSettlePayload, hil, hal, u64_to_bytes_be_length]
    have htake : (buildSettlePayload intent_id solver_evm_address amount).take 32 =
        intent_id := by
      rw [buildSettlePayload, ← hil, List.take_left]
    have hdrop : (buildSettlePayload intent_id solver_evm_address amount).drop 32 =
        (List.replicate 12 0 ++ solver_evm_address) ++
          (List.replicate 24 0 ++ u64_to_bytes_be amount) := by
      rw [buildSettlePayload, ← hil, List.drop_left]
    have htake2 : ((buildSettlePayload intent_id solver_evm_address amount).drop 32).take 32 =
        List.replicate 12 0 ++ solver_evm_address := by
      rw [hdrop, ← hl2, List.take_left]
    have hdrop64 : (buildSettlePayload intent_id solver_evm_address amount).drop 64 =
        List.replicate 24 0 ++ u64_to_bytes_be amount := by
      rw [show (64 : Nat) = 32 + 32 from rfl, ← List.drop_drop, hdrop, ← hl2,
        List.drop_left]
    have hw2 : beBytesToNat solver_evm_address < 2 ^ 160 := by
      have h := beBytesToNat_lt solver_evm_address hab
      rw [hal] at h
      calc beBytesToNat solver_evm_address < 256 ^ 20 := h
        _ = 2 ^ 160 := by norm_num
    norm_num at hw2
    simp only [abiDecodeSettlePayload, hlen, htake, htake2, hdrop64,
      beBytesToNat_zero_pad, beBytesToNat_u64_to_bytes_be amount hamt]
    simp [hw2]
  · intro coins recipient out h
    unfold solve_and_prove at h
    cases hl : coins.getLast? with
    | none =>
      simp only [hl] at h
      exact absurd h (by simp)
    | some last =>
      simp only [hl] at h
      by_cases hv : pay_all last coins.dropLast < amount
      · rw [if_pos hv] at h
        exact absurd h (by simp)
      · rw [if_neg hv] at h
        by_cases hl20 : solver_evm_address.length ≠ 20
        · rw [if_pos hl20] at h
          exact absurd h (by simp)
        · rw [if_neg hl20] at h
          by_cases he : pay_all last coins.dropLast = amount
          · rw [if_pos he] at h
            simp only [Except.ok.injEq] at h
            subst h
            rfl
          · rw [if_neg he] at h
            simp only [Except.ok.injEq] at h
            subst h
            rfl

/-- Witness for `solvePayload_decodes` on a concrete 32-byte intent id,
20-byte address and amount. -/
theorem solvePayload_decodes_witness :
    (List.replicate 32 0).length = 32 ∧
    (List.replicate 19 0 ++ [33]).length = 20 ∧
    (∀ b ∈ List.replicate 19 0 ++ [33], b < 256) ∧ (80 : Nat) < 2 ^ 64 ∧
    abiDecodeSettlePayload (buildSettlePayload (List.replicate 32 0)
        (List.replicate 19 0 ++ [33]) 80) =
      some (beBytesToNat (List.replicate 32 0),
        beBytesToNat (List.replicate 19 0 ++ [33]), 80) := by
  refine ⟨by decide, by decide, by decide, by decide, ?_⟩
  exact (solvePayload_decodes (List.replicate 32 0) (List.replicate 19 0 ++ [33]) 80
    (by decide) (by decide) (by decide) (by decide)).1

/-- C10: `solve_and_prove` aborts (performing no transfer, since a Move
abort is atomic) unless the payment-coin vector is non-empty, the merged
coin value covers `amount_to_send`, and the solver EVM address is exactly
20 bytes; on success the recipient receives exactly `amount_to_send`, any
excess of the merged coins is refunded to the solver, and no SUI is
retained (input total = amount sent + refund). -/
theorem solve_and_prove_spec (coins : List Nat) (recipient : Nat)
    (intent_id : List Nat) (amount : Nat) (addr : List Nat) :
    ((∃ out, solve_and_prove coins recipient intent_id amount addr = .ok out) ↔
      (coins ≠ [] ∧ amount ≤ coins.sum ∧ addr.length = 20)) ∧
    (∀ out, solve_and_prove coins recipient intent_id amount addr = .ok out →
      out.recipient = recipient ∧ out.recipientGets = amount ∧
      out.refundToSolver.getD 0 = coins.sum - amount ∧
      coins.sum = out.recipientGets + out.refundToSolver.getD 0) := by
  cases hl : coins.getLast? with
  | none =>
    have hnil : coins = [] := List.getLast?_eq_none_iff.mp hl
    subst hnil
    constructor
    · constructor
      · rintro ⟨out, h⟩
        simp [solve_and_prove] at h
      · rintro ⟨hne, _, _⟩
        exact absurd rfl hne
    · intro out h
      simp [solve_and_prove] at h
  | some last =>
    have hne : coins ≠ [] := by rintro rfl; simp at hl
    have hsum := getLast?_sum coins last hl
    constructor
    · constructor
      · rintro ⟨out, h⟩
        unfold solve_and_prove at h
        simp only [hl] at h
        by_cases hv : pay_all last coins.dropLast < amount
        · rw [if_pos hv] at h
          exact absurd h (by simp)
        · rw [if_neg hv] at h
          by_cases hl20 : addr.length ≠ 20
          · rw [if_pos hl20] at h
            exact absurd h (by simp)
          · exact ⟨hne, by omega, not_ne_iff.mp hl20⟩
      · rintro ⟨hne', hge, hlen⟩
        unfold solve_and_prove
        simp only [hl]
        rw [if_neg (by omega), if_neg (by simp [hlen])]
        split_ifs with heq
        · exact ⟨_, rfl⟩
        · exact ⟨_, rfl⟩
    · intro out h
      unfold solve_and_prove at h
      simp only [hl] at h
      by_cases hv : pay_all last coins.dropLast < amount
      · rw [if_pos hv] at h
        exact absurd h (by simp)
      · rw [if_neg hv] at h
        by_cases hl20 : addr.length ≠ 20
        · rw [if_pos hl20] at h
          exact absurd h (by simp)
        · rw [if_neg hl20] at h
          by_cases he : pay_all last coins.dropLast = amount
          · rw [if_pos he] at h
            simp only [Except.ok.injEq] at h
            subst h
            refine ⟨rfl, ?_, ?_, ?_⟩
            · show pay_all last coins.dropLast = amount
              omega
            · show (none : Option Nat).getD 0 = coins.sum - amount
              simp
              omega
            · show coins.sum = pay_all last coins.dropLast + (none : Option Nat).getD 0
              simp
              omega
          · rw [if_neg he] at h
            simp only [Except.ok.injEq] at h
            subst h
            refine ⟨rfl, rfl, ?_, ?_⟩
            · show (some (pay_all last coins.dropLast - amount)).getD 0 =
                coins.sum - amount
              simp
              omega
            · show coins.sum =
                amount + (some (pay_all last coins.dropLast - amount)).getD 0
              simp
              omega

/-- Witness for `solve_and_prove_spec`: two coins worth 110 covering a
100-unit payment with a 10-unit refund. -/
theorem solve_and_prove_spec_witness :
    ([30, 80] : List Nat) ≠ [] ∧ (100 : Nat) ≤ [30, 80].sum ∧
    (List.replicate 20 0).length = 20 ∧
    (∃ out, solve_and_prove [30, 80] 7 (List.replicate 32 0) 100
      (List.replicate 20 0) = .ok out) := by
  refine ⟨by decide, by decide, by decide, ?_⟩
  exact (solve_and_prove_spec [30, 80] 7 (List.replicate 32 0) 100
    (List.replicate 20 0)).1.mpr ⟨by decide, by decide, by decide⟩

/-! ## The solver bot (`src/scripts/solver-bot.ts`): event handling -/

/-- The `AuctionOrder` record the bot builds from an `OrderCreated` event. -/
structure AuctionOrder where
  orderId : Nat
  depositor : Nat
  inputAmount : Nat
  startOutputAmount : Nat
  minOutputAmount : Nat
  startTime : Nat
  duration : Nat
  recipientSui : Nat
deriving Repr, DecidableEq

/-- One `executeSolve` invocation (the irreversible destination-ledger
payment): which order it pays for and the amount paid. -/
structure FulfillInvocation where
  orderId : Nat
  amountPaid : Int
deriving Repr, DecidableEq

/-- Model of `SolverBot.start` / `SolverBot.monitorAndSolve`: the
`OrderCreated` handler unconditionally calls `monitorAndSolve`, whose
first poll tick computes `calculateDutchPrice`, clears the interval and
calls `executeSolve`.  The bot consults no per-order bookkeeping before
executing, so every delivered creation event produces one `executeSolve`
invocation. -/
def executeSolveCalls (deliveries : List AuctionOrder) (now : Nat) :
    List FulfillInvocation :=
  deliveries.map fun o =>
    ⟨o.orderId, calculateDutchPrice o.startOutputAmount o.minOutputAmount
      o.startTime o.duration now⟩

/-- Number of fulfillment payments the bot makes for order `oid` given a
sequence of delivered creation events. -/
def fulfillCount (deliveries : List AuctionOrder) (now oid : Nat) : Nat :=
  ((executeSolveCalls deliveries now).filter (fun c => c.orderId = oid)).length

/-- C7 (code evaluated at the failing input): delivering the same
`OrderCreated` event for order 7 twice makes the bot pay twice — it keeps
no per-order record, so the claimed at-most-once fulfillment does not
hold under duplicate delivery of the same creation event. -/
theorem duplicate_delivery_double_fulfill :
    fulfillCount [⟨7, 1, 1000, 100, 50, 0, 600, 2⟩, ⟨7, 1, 1000, 100, 50, 0, 600, 2⟩]
        300 7 = 2 ∧
    ¬ fulfillCount [⟨7, 1, 1000, 100, 50, 0, 600, 2⟩, ⟨7, 1, 1000, 100, 50, 0, 600, 2⟩]
        300 7 ≤ 1 := by
  constructor <;> decide

/-! ## VAA polling (`SolverBot.fetchVaaAndSettle`) -/

/-- `maxRetries` in `fetchVaaAndSettle`: 30 poll attempts. -/
def VAA_POLL_MAX_RETRIES : Nat := 30

/-- The fixed delay after an unsuccessful poll attempt (2 s), in ms. -/
def VAA_POLL_DELAY_MS : Nat := 2000

/-- The polling loop of `fetchVaaAndSettle`, started at attempt `i` with
the given fuel.  `responses i` is the guardian API's answer at attempt `i`
(`none` models both an HTTP error and a response without `vaaBytes`).
Returns the VAA if one was found, the number of attempts made, and the
total scheduled delay: the loop sleeps 2000 ms after each failed attempt
and breaks before sleeping on success. -/
def pollVaaFrom (responses : Nat → Option Nat) (i : Nat) :
    Nat → Option Nat × Nat × Nat
  | 0 => (none, 0, 0)
  | fuel + 1 =>
    match responses i with
    | some v => (some v, 1, 0)
    | none =>
      let r := pollVaaFrom responses (i + 1) fuel
      (r.1, r.2.1 + 1, r.2.2 + VAA_POLL_DELAY_MS)

/-- Outcome of `fetchVaaAndSettle`: the VAA found (if any), poll attempts
used, total scheduled delay, and whether settlement was invoked
(`settleOnEvm` runs only when a VAA was obtained; on exhaustion the
function logs an error and returns — the bot has no lifecycle state to
update). -/
structure VaaPollOutcome where
  vaa : Option Nat
  attempts : Nat
  sleepMs : Nat
  settleCalled : Bool
deriving Repr, DecidableEq

/-- Model of `SolverBot.fetchVaaAndSettle`'s control flow. -/
def fetchVaaAndSettle (responses : Nat → Option Nat) : VaaPollOutcome :=
  let r := pollVaaFrom responses 0 VAA_POLL_MAX_RETRIES
  ⟨r.1, r.2.1, r.2.2, r.1.isSome⟩

/-- C8 (counterexample): when the attestation service never returns a
value, the bot's polling loop gives up after its 30-attempt budget with
60000 ms of scheduled delay — not at a 600000 ms (600 s) boundary — makes
no settlement call, and performs no lifecycle transition (the bot has no
lifecycle state at all). -/
theorem vaa_poll_timeout_mismatch :
    fetchVaaAndSettle (fun _ => none) = ⟨none, 30, 60000, false⟩ ∧
    (60000 : Nat) ≠ 600000 := by
  constructor <;> decide

theorem pollVaaFrom_allNone (responses : Nat → Option Nat) (fuel : Nat) :
    ∀ i, (∀ j, j < fuel → responses (i + j) = none) →
    pollVaaFrom responses i fuel = (none, fuel, fuel * VAA_POLL_DELAY_MS) := by
  induction fuel with
  | zero => intro i _; rfl
  | succ f ih =>
    intro i hnone
    have h0 : responses i = none := by
      have := hnone 0 (by omega)
      simpa using this
    have hrest : ∀ j, j < f → responses (i + 1 + j) = none := by
      intro j hj
      have := hnone (j + 1) (by omega)
      rwa [show i + (j + 1) = i + 1 + j by ring] at this
    simp only [pollVaaFrom, h0, ih (i + 1) hrest]
    rw [Nat.succ_mul]

theorem pollVaaFrom_found (responses : Nat → Option Nat) (fuel : Nat) :
    ∀ i k v, k < fuel → (∀ j, j < k → responses (i + j) = none) →
    responses (i + k) = some v →
    pollVaaFrom responses i fuel = (some v, k + 1, k * VAA_POLL_DELAY_MS) := by
  induction fuel with
  | zero => intro i k v hk; omega
  | succ f ih =>
    intro i k v hk hnone hfound
    cases k with
    | zero =>
      simp only [Nat.add_zero] at hfound
      simp [pollVaaFrom, hfound]
    | succ k' =>
      have h0 : responses i = none := by
        have := hnone 0 (by omega)
        simpa using this
      have hrest : ∀ j, j < k' → responses (i + 1 + j) = none := by
        intro j hj
        have := hnone (j + 1) (by omega)
        rwa [show i + (j + 1) = i + 1 + j by ring] at this
      have hfound' : responses (i + 1 + k') = some v := by
        rwa [show i + (k' + 1) = i + 1 + k' by ring] at hfound
      simp only [pollVaaFrom, h0, ih (i + 1) k' v (by omega) hrest hfound']
      rw [Nat.succ_mul]

/-- C8 (amended): a `null`/absent response before exhaustion is treated
as not-yet-available and polling continues — if the service first answers
at attempt `k < 30` the loop returns that VAA after `k` failed attempts
(2000 ms scheduled delay each) and settles; if it never answers within
the 30-attempt budget the function stops polling after exactly 30
attempts and 60000 ms of scheduled delay and returns without settling (no
`Failed` lifecycle transition exists, and no 600 s boundary governs this
loop). -/
theorem vaa_poll_spec (responses : Nat → Option Nat) :
    ((∀ i, i < VAA_POLL_MAX_RETRIES → responses i = none) →
      fetchVaaAndSettle responses = ⟨none, 30, 60000, false⟩) ∧
    (∀ k v, k < VAA_POLL_MAX_RETRIES →
      (∀ i, i < k → responses i = none) → responses k = some v →
      fetchVaaAndSettle responses =
        ⟨some v, k + 1, k * VAA_POLL_DELAY_MS, true⟩) := by
  constructor
  · intro hnone
    have h := pollVaaFrom_allNone responses VAA_POLL_MAX_RETRIES 0
      (fun j hj => by simpa using hnone j hj)
    simp only [fetchVaaAndSettle, h]
    rfl
  · intro k v hk hnone hfound
    have h := pollVaaFrom_found responses VAA_POLL_MAX_RETRIES 0 k v hk
      (fun j hj => by simpa using hnone j hj) (by simpa using hfound)
    simp only [fetchVaaAndSettle, h]
    rfl

/-- Witness for `vaa_poll_spec`: the service answers at attempt 3. -/
theorem vaa_poll_spec_witness :
    (3 : Nat) < VAA_POLL_MAX_RETRIES ∧
    (∀ i, i < 3 → (if i = 3 then some 7 else none : Option Nat) = none) ∧
    (if (3 : Nat) = 3 then some 7 else none : Option Nat) = some 7 ∧
    fetchVaaAndSettle (fun i => if i = 3 then some 7 else none) =
      ⟨some 7, 3 + 1, 3 * VAA_POLL_DELAY_MS, true⟩ := by
  refine ⟨by decide, by decide, by decide, ?_⟩
  exact (vaa_poll_spec (fun i => if i = 3 then some 7 else none)).2 3 7
    (by decide) (by decide) (by decide)

end IntentBridge
